import Mathlib

/-!
Verification development for the gopeat time-stamped data replayer
(`gopeat.go`).  The Go source is shallowly embedded: durations and
instants are `Int` nanoseconds, Go's `time.Duration` division is
`Int.tdiv` (truncation toward zero, panicking on a zero divisor),
channels and the wall clock are modelled by explicit observation
streams, and goroutine steps become state-transition functions.
-/

namespace GoPeat

/-- 250 milliseconds in nanoseconds: the cap on a single sleep in
`dataTimer` (line 382 of gopeat.go). -/
def ms250 : Int := 250000000

/-- A time-stamped value.  `TimeStamper` in the Go source is an
interface exposing `GetTimeStamp`; the embedding fixes a concrete
carrier with a timestamp `tim` (nanoseconds) and an opaque payload
`val`, mirroring the `mockTsData` shape used by the repository's own
tests. -/
structure Ev where
  tim : Int
  val : Int
deriving DecidableEq

/-- The source value handed to `New`.  In Go the parameter has static
type `TimeStampSource`; whether the dynamic value also implements the
`TimeBracket` interface (`SetStartTime`/`SetEndTime`) is only
discovered by the unchecked type assertions on lines 137-138. -/
structure TsSrc where
  implementsTimeBracket : Bool
deriving DecidableEq

/-- The fields of the `PlayBack` struct that `New` populates
(lines 113-142 of gopeat.go).  `SendTs` is the sink callback; a `true`
return models a nil error. -/
structure PlayBack where
  Symbol : String
  StartTime : Int
  EndTime : Int
  SimRate : Int
  simRatDur : Int
  tsDataBufSize : Nat
  tsDataChanLen : Nat
  SendTs : Ev → Bool

/-- Outcome of `New`: a synchronous error, a Go runtime panic
(from the unchecked `TimeBracket` type assertion), or a session. -/
inductive NewResult where
  | err (msg : String)
  | panicked
  | ok (pb : PlayBack)

/-- `New` (gopeat.go lines 103-144): rejects a nil source with an
error; otherwise builds the session, installs a no-op sink when `cb`
is nil, hard-codes `tsDataBufSize = 500` and `tsDataChanLen = 5`,
asserts the source to `TimeBracket` (panicking when the dynamic value
does not implement it), and stores the rate as a duration. -/
def New (symbol : String) (startTime endTime : Int)
    (tsSource : Option TsSrc) (simRate : Int)
    (cb : Option (Ev → Bool)) : NewResult :=
  match tsSource with
  | none => .err "playBack: tsSource required"
  | some src =>
      if src.implementsTimeBracket then
        .ok { Symbol := symbol
              StartTime := startTime
              EndTime := endTime
              SimRate := simRate
              simRatDur := simRate
              tsDataBufSize := 500
              tsDataChanLen := 5
              SendTs := match cb with
                        | none => fun _ => true
                        | some f => f }
      else .panicked

/-- Inner loop of `loadTimeStampedData` (gopeat.go lines 227-256).
`src` is the remaining source data, `buf` the reusable accumulation
buffer, `B` the batch capacity `tsDataBufSize`, and `quit i` tells
whether the quit channel is closed at the check following the i-th
`Next` call.  The returned list holds the slices written to
`tsDataChan`, in order.  On quit the current event is dropped and
nothing further is sent; on source exhaustion a non-empty partial
buffer is flushed. -/
def loadLoop (B : Nat) (quit : Nat → Bool) :
    List Ev → Nat → List Ev → List (List Ev)
  | [], _, buf => if buf.length > 0 then [buf] else []
  | e :: rest, i, buf =>
      if quit i then []
      else
        let buf1 := buf ++ [e]
        if buf1.length = B then buf1 :: loadLoop B quit rest (i + 1) []
        else loadLoop B quit rest (i + 1) buf1

/-- `loadTimeStampedData` (gopeat.go lines 221-257), started with an
empty buffer.  Closing of `tsDataChan` is implicit: the list ends. -/
def loadTimeStampedData (es : List Ev) (B : Nat) (quit : Nat → Bool) :
    List (List Ev) :=
  loadLoop B quit es 0 []

/-- What the `SleepCheck` select (gopeat.go lines 339-352) observes on
one pass: nothing ready, the quit channel closed, the pause channel
closed followed by a resume, or the pause channel closed followed by
quit. -/
inductive Sig where
  | clear
  | quit
  | pauseResume
  | pauseQuit
deriving DecidableEq

/-- Environment snapshot consumed by one pass through `SleepCheck` and
its timing computation: the control-channel observation, the value
`time.Now()` would return, and the value of `pb.pauseDur` read under
the lock on that pass. -/
structure Obs where
  sig : Sig
  now : Int
  pauseDur : Int
deriving DecidableEq

/-- Per-event timing record `runTimings` (gopeat.go lines 438-444).
`realTimeBeforeSleep` exists in the Go struct but is never assigned,
so it stays at its zero value. -/
structure RunTimings where
  trdTime : Int
  sd : Int
  realTimeBeforeSleep : Int := 0
  recNum : Int
  driftDur : Int
deriving DecidableEq

/-- The `dataTimer` loop state carried between events (gopeat.go
lines 320-333 and 416-431). -/
structure TimerState where
  prevTsDataTime : Int
  prevWallSendTime : Int
  driftFactor : Int
  tsRecCnt : Int
  timings : List RunTimings
deriving DecidableEq

/-- `dataTimer` initial state (gopeat.go lines 320-333): no records
sent, zero drift, previous timestamp `pb.StartTime`, previous wall
send time the clock reading taken on line 333. -/
def initTimer (startTime now0 : Int) : TimerState :=
  { prevTsDataTime := startTime
    prevWallSendTime := now0
    driftFactor := 0
    tsRecCnt := 0
    timings := [] }

/-- The scaled inter-event interval `tsDur` (gopeat.go lines 361-362):
timestamp gap divided by `simRatDur` with Go's truncating integer
division. -/
def tsDurOf (rate tsCur tsPrev : Int) : Int :=
  Int.tdiv (tsCur - tsPrev) rate

/-- The sleep duration `sd` (gopeat.go lines 363-377): scaled gap
minus pause-adjusted elapsed wall time minus the drift factor. -/
def sdOf (rate tsCur tsPrev now prevWall pause drift : Int) : Int :=
  (tsDurOf rate tsCur tsPrev - ((now - prevWall) - pause)) - drift

/-- `time.Sleep` semantics: a non-positive duration does not wait. -/
def sleepEff (d : Int) : Int := max d 0

/-- Result of the `SleepCheck` loop for one event: ready to emit after
the recorded effective waits (carrying the final `tsDur` and `sd`
variable values and the unconsumed observations), stopped by quit, or
a divide-by-zero panic from `tsDur / pb.simRatDur`. -/
inductive SleepEnd where
  | emitReady (waits : List Int) (tsDur sd : Int) (rest : List Obs)
  | quitSig (waits : List Int)
  | divZero
deriving DecidableEq

/-- Prepend one completed wait to a `SleepCheck` loop result. -/
def consWait (d : Int) : Option SleepEnd → Option SleepEnd
  | some (.emitReady ws t s r) => some (.emitReady (d :: ws) t s r)
  | some (.quitSig ws) => some (.quitSig (d :: ws))
  | x => x

/-- The `SleepCheck` loop for one event (gopeat.go lines 339-387):
check quit/pause; on a matching timestamp skip all timing work; else
compute `tsDur` and `sd` from the current clock and pause readings;
if `sd` exceeds 250 ms sleep 250 ms and start over at `SleepCheck`;
otherwise sleep `sd` (a non-positive `sd` waits not at all) and fall
through to the emit.  `none` means the observation stream ran dry. -/
def sleepCheck (rate tsCur tsPrev prevWall drift : Int) :
    List Obs → Option SleepEnd
  | [] => none
  | o :: rest =>
      match o.sig with
      | .quit => some (.quitSig [])
      | .pauseQuit => some (.quitSig [])
      | _ =>
          if tsCur = tsPrev then some (.emitReady [] 0 0 rest)
          else if rate = 0 then some .divZero
          else
            let sd := sdOf rate tsCur tsPrev o.now prevWall o.pauseDur drift
            if ms250 < sd then
              consWait ms250 (sleepCheck rate tsCur tsPrev prevWall drift rest)
            else some (.emitReady [sleepEff sd] (tsDurOf rate tsCur tsPrev) sd rest)

/-- Outcome of processing one event inside `dataTimer`'s inner loop:
emitted (with the successor state, remaining observations, and the
effective waits performed), stopped by quit, divide-by-zero panic, or
observation stream exhausted. -/
inductive EvOutcome where
  | ok (s : TimerState) (os : List Obs) (waits : List Int)
  | quitE
  | divZero
  | starved
deriving DecidableEq

/-- One pass of `dataTimer`'s inner loop for event `ev` (gopeat.go
lines 337-432): bump `tsRecCnt`, run `SleepCheck`, emit on `timedTs`,
read the wall send time and `pb.pauseDur` again, compute `driftDur`,
append the `runTimings` record, and roll the loop state forward with
`driftFactor + driftDur`. -/
def processTs (rate : Int) (ev : Ev) (s : TimerState) (os : List Obs) :
    EvOutcome :=
  let cnt := s.tsRecCnt + 1
  match sleepCheck rate ev.tim s.prevTsDataTime s.prevWallSendTime
      s.driftFactor os with
  | none => .starved
  | some (.quitSig _) => .quitE
  | some .divZero => .divZero
  | some (.emitReady ws tsDur sd rest) =>
      match rest with
      | [] => .starved
      | e :: rest1 =>
          let wallSend := e.now
          let driftDur := ((wallSend - s.prevWallSendTime) - e.pauseDur) - tsDur
          let rt : RunTimings :=
            { trdTime := ev.tim
              sd := sd
              recNum := cnt
              driftDur := driftDur }
          .ok { prevTsDataTime := ev.tim
                prevWallSendTime := wallSend
                driftFactor := s.driftFactor + driftDur
                tsRecCnt := cnt
                timings := s.timings ++ [rt] } rest1 ws

/-- Outcome of a `dataTimer` run over (part of) the batch stream:
natural termination with the emitted sequence, quit, panic, or an
exhausted observation stream. -/
inductive RunOut where
  | finished (emitted : List Ev) (s : TimerState) (os : List Obs)
  | quitRun (emitted : List Ev)
  | panicRun (emitted : List Ev)
  | starved
deriving DecidableEq

/-- `dataTimer`'s inner loop over one buffer slice
(gopeat.go line 337). -/
def timerBuf (rate : Int) : List Ev → TimerState → List Obs → RunOut
  | [], s, os => .finished [] s os
  | e :: es, s, os =>
      match processTs rate e s os with
      | .ok s1 os1 _ =>
          match timerBuf rate es s1 os1 with
          | .finished em s2 os2 => .finished (e :: em) s2 os2
          | .quitRun em => .quitRun (e :: em)
          | .panicRun em => .panicRun (e :: em)
          | .starved => .starved
      | .quitE => .quitRun []
      | .divZero => .panicRun []
      | .starved => .starved

/-- `dataTimer`'s outer loop over the batch stream (gopeat.go
lines 336-433): drain each buffer read from `tsDataChan`; when the
channel closes, close `timedTs` and return (natural termination). -/
def dataTimer (rate : Int) :
    List (List Ev) → TimerState → List Obs → RunOut
  | [], s, os => .finished [] s os
  | b :: bs, s, os =>
      match timerBuf rate b s os with
      | .finished em1 s1 os1 =>
          match dataTimer rate bs s1 os1 with
          | .finished em2 s2 os2 => .finished (em1 ++ em2) s2 os2
          | .quitRun em2 => .quitRun (em1 ++ em2)
          | .panicRun em2 => .panicRun (em1 ++ em2)
          | .starved => .starved
      | .quitRun em => .quitRun em
      | .panicRun em => .panicRun em
      | .starved => .starved

/-- The controller's select loop (gopeat.go lines 283-307) invokes the
client callback `SendTs` once per value received from `timedTs`, in
arrival order, until the channel closes. -/
def controllerSink : List Ev → List Ev
  | [] => []
  | e :: es => e :: controllerSink es

/-- A Go channel used as a broadcast signal: a generation counter
(bumped each time a fresh channel is allocated with `make`) and a
closed flag. -/
structure ChanSt where
  gen : Nat
  closed : Bool
deriving DecidableEq

/-- The control-state fields of `PlayBack` shared between the API
methods, the controller, and the timer: the idempotence flags
(gopeat.go lines 83-86), the accumulated pause duration guarded by
`pauseMu` (lines 88-90), and the three control channels. -/
structure PBCtl where
  paused : Bool
  replayActive : Bool
  pauseDur : Int
  pauseChan : ChanSt
  resumeChan : ChanSt
  quitChan : ChanSt
deriving DecidableEq

/-- `Play` (gopeat.go lines 161-170): when the replay is not active it
spawns the controller goroutine (second component `true`) and waits
for it to start; otherwise it does nothing at all.  `Play` itself
mutates no control state — the spawned controller does, via
`initRun`. -/
def Play (s : PBCtl) : PBCtl × Bool :=
  if s.replayActive = false then (s, true) else (s, false)

/-- `Pause` (gopeat.go lines 173-183): when unpaused and active,
allocate a fresh resume channel, close the pause channel (returning
its generation as the signalled channel), and set `paused`; otherwise
change nothing and signal nothing. -/
def Pause (s : PBCtl) : PBCtl × Option Nat :=
  if s.paused = false ∧ s.replayActive = true then
    ({ s with
        resumeChan := { gen := s.resumeChan.gen + 1, closed := false }
        pauseChan := { s.pauseChan with closed := true }
        paused := true }, some s.pauseChan.gen)
  else (s, none)

/-- `Resume` (gopeat.go lines 186-197): when paused, allocate a fresh
pause channel, close the resume channel, and clear `paused`;
otherwise change nothing and signal nothing. -/
def Resume (s : PBCtl) : PBCtl × Option Nat :=
  if s.paused = true then
    ({ s with
        pauseChan := { gen := s.pauseChan.gen + 1, closed := false }
        resumeChan := { s.resumeChan with closed := true }
        paused := false }, some s.resumeChan.gen)
  else (s, none)

/-- `Quit` (gopeat.go lines 201-206): when active, close the quit
channel and clear `replayActive`; otherwise change nothing and signal
nothing. -/
def Quit (s : PBCtl) : PBCtl × Option Nat :=
  if s.replayActive = true then
    ({ s with
        quitChan := { s.quitChan with closed := true }
        replayActive := false }, some s.quitChan.gen)
  else (s, none)

/-- `init` as run by the freshly spawned controller (gopeat.go
lines 147-158 and 268): fresh control channels, `paused` cleared,
`replayActive` raised by the controller right after.  Note `init`
leaves `pauseDur` untouched. -/
def initRun (s : PBCtl) : PBCtl :=
  { s with
      pauseChan := { gen := s.pauseChan.gen + 1, closed := false }
      resumeChan := { gen := s.resumeChan.gen + 1, closed := false }
      quitChan := { gen := s.quitChan.gen + 1, closed := false }
      paused := false
      replayActive := true }

/-- The controller's resume handling (gopeat.go lines 296-305): after
a pause signal, on resume it adds the measured pause interval
`time.Since(pWallStart)` to `pb.pauseDur` under the write lock. -/
def controllerOnResume (s : PBCtl) (pElapsed : Int) : PBCtl :=
  { s with pauseDur := pElapsed + s.pauseDur }

/-- The timer's post-emit section (gopeat.go lines 400-406): under the
write lock it reads `pb.pauseDur` to compute `driftDur`, then resets
`pb.pauseDur` to zero.  Returns the new state and `driftDur`. -/
def dataTimerAfterEmit (s : PBCtl) (wallSend prevWallSend tsDur : Int) :
    PBCtl × Int :=
  ({ s with pauseDur := 0 },
   ((wallSend - prevWallSend) - s.pauseDur) - tsDur)

/-! ### Loader lemmas -/

theorem loadLoop_flatten (B : Nat) (quit : Nat → Bool)
    (hq : ∀ i, quit i = false) :
    ∀ (src : List Ev) (i : Nat) (buf : List Ev),
      (loadLoop B quit src i buf).flatten = buf ++ src := by
  intro src
  induction src with
  | nil =>
      intro i buf
      by_cases hb : buf.length > 0
      · simp [loadLoop, hb]
      · simp only [loadLoop, if_neg hb]
        have : buf = [] := List.length_eq_zero.mp (by omega)
        simp [this]
  | cons e rest ih =>
      intro i buf
      simp only [loadLoop, hq i, Bool.false_eq_true, if_false]
      by_cases hfull : (buf ++ [e]).length = B
      · simp only [if_pos hfull, List.flatten_cons, ih (i + 1) []]
        simp
      · simp only [if_neg hfull, ih (i + 1) (buf ++ [e])]
        simp

theorem loadLoop_length (B : Nat) (hB : 0 < B) (quit : Nat → Bool)
    (hq : ∀ i, quit i = false) :
    ∀ (src : List Ev) (i : Nat) (buf : List Ev), buf.length < B →
      (loadLoop B quit src i buf).length =
        (buf.length + src.length + B - 1) / B := by
  intro src
  induction src with
  | nil =>
      intro i buf hlt
      by_cases hb : buf.length > 0
      · simp only [loadLoop, if_pos hb, List.length_singleton,
          List.length_nil]
        have h1 : buf.length + 0 + B - 1 = (buf.length - 1) + B := by omega
        rw [h1, Nat.add_div_right _ hB,
          Nat.div_eq_of_lt (by omega : buf.length - 1 < B)]
      · simp only [loadLoop, if_neg hb, List.length_nil]
        have h1 : buf.length + 0 + B - 1 = B - 1 := by omega
        rw [h1, Nat.div_eq_of_lt (by omega : B - 1 < B)]
  | cons e rest ih =>
      intro i buf hlt
      simp only [loadLoop, hq i, Bool.false_eq_true, if_false]
      by_cases hfull : (buf ++ [e]).length = B
      · have hbe : buf.length + 1 = B := by
          simpa using hfull
        simp only [if_pos hfull, List.length_cons,
          ih (i + 1) [] (by simpa using hB)]
        have h1 : buf.length + (rest.length + 1) + B - 1 =
            (rest.length + B - 1) + B := by omega
        have h2 : (0 : Nat) + rest.length + B - 1 = rest.length + B - 1 := by
          omega
        simp only [List.length_nil, List.length_cons, h1, h2,
          Nat.add_div_right _ hB]
      · have hlt1 : (buf ++ [e]).length < B := by
          have : (buf ++ [e]).length = buf.length + 1 := by simp
          omega
        simp only [if_neg hfull, ih (i + 1) (buf ++ [e]) hlt1]
        have h1 : (buf ++ [e]).length + rest.length + B - 1 =
            buf.length + (e :: rest).length + B - 1 := by
          simp; omega
        rw [h1]

theorem loadLoop_dropLast (B : Nat) (quit : Nat → Bool)
    (hq : ∀ i, quit i = false) :
    ∀ (src : List Ev) (i : Nat) (buf : List Ev),
      ∀ b ∈ (loadLoop B quit src i buf).dropLast, b.length = B := by
  intro src
  induction src with
  | nil =>
      intro i buf b hb
      by_cases h0 : buf.length > 0
      · simp [loadLoop, h0] at hb
      · simp [loadLoop, h0] at hb
  | cons e rest ih =>
      intro i buf b hb
      simp only [loadLoop, hq i, Bool.false_eq_true, if_false] at hb
      by_cases hfull : (buf ++ [e]).length = B
      · rw [if_pos hfull] at hb
        rcases hrec : loadLoop B quit rest (i + 1) [] with _ | ⟨x, xs⟩
        · rw [hrec] at hb
          simp at hb
        · rw [hrec, List.dropLast_cons₂] at hb
          rcases List.mem_cons.mp hb with hb1 | hb1
          · rw [hb1]
            exact hfull
          · have := ih (i + 1) [] b
            rw [hrec] at this
            exact this hb1
      · rw [if_neg hfull] at hb
        exact ih (i + 1) (buf ++ [e]) b hb

theorem loadLoop_ne_nil (B : Nat) (quit : Nat → Bool)
    (hq : ∀ i, quit i = false) :
    ∀ (src : List Ev) (i : Nat) (buf : List Ev), src ≠ [] ∨ buf ≠ [] →
      loadLoop B quit src i buf ≠ [] := by
  intro src
  induction src with
  | nil =>
      intro i buf h
      have hb : buf ≠ [] := by tauto
      have h0 : buf.length > 0 := List.length_pos.mpr hb
      simp [loadLoop, h0]
  | cons e rest ih =>
      intro i buf _
      simp only [loadLoop, hq i, Bool.false_eq_true, if_false]
      by_cases hfull : (buf ++ [e]).length = B
      · rw [if_pos hfull]
        exact List.cons_ne_nil _ _
      · rw [if_neg hfull]
        exact ih (i + 1) (buf ++ [e]) (Or.inr (by simp))

theorem loadLoop_getLast (B : Nat) (hB : 0 < B) (quit : Nat → Bool)
    (hq : ∀ i, quit i = false) :
    ∀ (src : List Ev) (i : Nat) (buf : List Ev), buf.length < B →
      ∀ l, (loadLoop B quit src i buf).getLast? = some l →
        l.length = if (buf.length + src.length) % B = 0 then B
                   else (buf.length + src.length) % B := by
  intro src
  induction src with
  | nil =>
      intro i buf hlt l hl
      by_cases h0 : buf.length > 0
      · simp only [loadLoop, if_pos h0, List.getLast?_singleton,
          Option.some.injEq] at hl
        simp only [List.length_nil]
        have hmod : (buf.length + 0) % B = buf.length := by
          rw [Nat.add_zero]
          exact Nat.mod_eq_of_lt hlt
        rw [hmod, if_neg (by omega), ← hl]
      · simp [loadLoop, h0] at hl
  | cons e rest ih =>
      intro i buf hlt l hl
      simp only [loadLoop, hq i, Bool.false_eq_true, if_false] at hl
      by_cases hfull : (buf ++ [e]).length = B
      · have hbe : buf.length + 1 = B := by simpa using hfull
        rw [if_pos hfull] at hl
        rcases hrec : loadLoop B quit rest (i + 1) [] with _ | ⟨x, xs⟩
        · have hre : rest = [] := by
            by_contra hne
            exact loadLoop_ne_nil B quit hq rest (i + 1) []
              (Or.inl hne) hrec
          rw [hrec] at hl
          simp only [List.getLast?_singleton, Option.some.injEq] at hl
          have hmod : (buf.length + (e :: rest).length) % B = 0 := by
            subst hre
            have hex : buf.length + (e :: ([] : List Ev)).length = B := by
              simp only [List.length_cons, List.length_nil]
              omega
            rw [hex, Nat.mod_self]
          rw [hmod, if_pos rfl, ← hl, hfull]
        · rw [hrec] at hl
          rw [List.getLast?_cons_cons] at hl
          have hlast : (x :: xs).getLast? = some l := hl
          have := ih (i + 1) [] (by simpa using hB) l
          rw [hrec] at this
          have hres := this hlast
          have hmod : (buf.length + (e :: rest).length) % B =
              (0 + rest.length) % B := by
            simp only [List.length_cons, List.length_nil, Nat.zero_add]
            have : buf.length + (rest.length + 1) = rest.length + B := by
              omega
            rw [this, Nat.add_mod_right]
          rw [hmod]
          exact hres
      · have hlt1 : (buf ++ [e]).length < B := by
          have : (buf ++ [e]).length = buf.length + 1 := by simp
          omega
        rw [if_neg hfull] at hl
        have hres := ih (i + 1) (buf ++ [e]) hlt1 l hl
        have hmod : (buf ++ [e]).length + rest.length =
            buf.length + (e :: rest).length := by
          simp; omega
        rw [hmod] at hres
        exact hres

/-! ### Timer lemmas -/

theorem controllerSink_eq (es : List Ev) : controllerSink es = es := by
  induction es with
  | nil => rfl
  | cons e es ih => simp [controllerSink, ih]

theorem timerBuf_finished (rate : Int) :
    ∀ (es : List Ev) (s : TimerState) (os : List Obs) (em : List Ev)
      (s1 : TimerState) (os1 : List Obs),
      timerBuf rate es s os = .finished em s1 os1 → em = es := by
  intro es
  induction es with
  | nil =>
      intro s os em s1 os1 h
      simp only [timerBuf] at h
      cases h
      rfl
  | cons e es ih =>
      intro s os em s1 os1 h
      cases hp : processTs rate e s os with
      | ok s2 os2 ws =>
          simp only [timerBuf, hp] at h
          cases hb : timerBuf rate es s2 os2 with
          | finished em2 s3 os3 =>
              simp only [hb, RunOut.finished.injEq] at h
              rw [← h.1, ih s2 os2 em2 s3 os3 hb]
          | quitRun em2 =>
              simp only [hb] at h
              exact RunOut.noConfusion h
          | panicRun em2 =>
              simp only [hb] at h
              exact RunOut.noConfusion h
          | starved =>
              simp only [hb] at h
              exact RunOut.noConfusion h
      | quitE =>
          simp only [timerBuf, hp] at h
          exact RunOut.noConfusion h
      | divZero =>
          simp only [timerBuf, hp] at h
          exact RunOut.noConfusion h
      | starved =>
          simp only [timerBuf, hp] at h
          exact RunOut.noConfusion h

theorem dataTimer_finished (rate : Int) :
    ∀ (bs : List (List Ev)) (s : TimerState) (os : List Obs)
      (em : List Ev) (s1 : TimerState) (os1 : List Obs),
      dataTimer rate bs s os = .finished em s1 os1 → em = bs.flatten := by
  intro bs
  induction bs with
  | nil =>
      intro s os em s1 os1 h
      simp only [dataTimer] at h
      cases h
      rfl
  | cons b bs ih =>
      intro s os em s1 os1 h
      cases hb : timerBuf rate b s os with
      | finished em1 s2 os2 =>
          simp only [dataTimer, hb] at h
          cases hd : dataTimer rate bs s2 os2 with
          | finished em2 s3 os3 =>
              simp only [hd, RunOut.finished.injEq] at h
              rw [← h.1, timerBuf_finished rate b s os em1 s2 os2 hb,
                ih s2 os2 em2 s3 os3 hd, List.flatten_cons]
          | quitRun em2 =>
              simp only [hd] at h
              exact RunOut.noConfusion h
          | panicRun em2 =>
              simp only [hd] at h
              exact RunOut.noConfusion h
          | starved =>
              simp only [hd] at h
              exact RunOut.noConfusion h
      | quitRun em1 =>
          simp only [dataTimer, hb] at h
          exact RunOut.noConfusion h
      | panicRun em1 =>
          simp only [dataTimer, hb] at h
          exact RunOut.noConfusion h
      | starved =>
          simp only [dataTimer, hb] at h
          exact RunOut.noConfusion h

/-! ### Claim theorems -/

/-- C1: for every finite source yielding events in timestamp order,
the sequence of events handed to the sink callback `SendTs` by the
controller during a replay that terminates naturally (the timer drains
every loader batch and reports `finished`) is exactly the source
sequence: same events, same order, none dropped or duplicated. -/
theorem c1_sink_receives_source_order
    (es : List Ev) (B : Nat) (quit : Nat → Bool) (rate : Int)
    (s : TimerState) (os : List Obs) (em : List Ev) (s1 : TimerState)
    (os1 : List Obs)
    (_hsorted : List.Pairwise (fun a b => a.tim ≤ b.tim) es)
    (hq : ∀ i, quit i = false)
    (hrun : dataTimer rate (loadTimeStampedData es B quit) s os =
      .finished em s1 os1) :
    controllerSink em = es := by
  rw [controllerSink_eq,
    dataTimer_finished rate (loadTimeStampedData es B quit) s os em s1 os1
      hrun]
  have h := loadLoop_flatten B quit hq es 0 []
  simpa [loadTimeStampedData] using h

theorem c1_witness :
    controllerSink [(⟨0, 1⟩ : Ev), ⟨0, 2⟩] = [⟨0, 1⟩, ⟨0, 2⟩] :=
  c1_sink_receives_source_order [⟨0, 1⟩, ⟨0, 2⟩] 1 (fun _ => false) 1
    (initTimer 0 0)
    [⟨.clear, 0, 0⟩, ⟨.clear, 1, 0⟩, ⟨.clear, 2, 0⟩, ⟨.clear, 3, 0⟩]
    [⟨0, 1⟩, ⟨0, 2⟩]
    ⟨0, 3, 3, 2, [⟨0, 0, 0, 1, 1⟩, ⟨0, 0, 0, 2, 2⟩]⟩ []
    (by decide) (fun _ => rfl) (by decide)

/-- C6: for a source of N events and batch capacity B, the loader
writes exactly ⌈N/B⌉ batches, each of size B except a final partial
one of size N mod B when N mod B is nonzero (size B when B divides N);
an empty partial batch is never written. -/
theorem c6_loader_batching (es : List Ev) (B : Nat) (quit : Nat → Bool)
    (hB : 0 < B) (hq : ∀ i, quit i = false) :
    (loadTimeStampedData es B quit).length = (es.length + B - 1) / B ∧
    (∀ b ∈ (loadTimeStampedData es B quit).dropLast, b.length = B) ∧
    (∀ l, (loadTimeStampedData es B quit).getLast? = some l →
      l.length = if es.length % B = 0 then B else es.length % B) := by
  refine ⟨?_, ?_, ?_⟩
  · have h := loadLoop_length B hB quit hq es 0 [] (by simpa using hB)
    simpa [loadTimeStampedData] using h
  · exact loadLoop_dropLast B quit hq es 0 []
  · intro l hl
    have h := loadLoop_getLast B hB quit hq es 0 [] (by simpa using hB) l hl
    simpa using h

theorem c6_witness :
    ((loadTimeStampedData ((List.range 23).map fun i => ⟨(i : Int), (i : Int)⟩)
        10 (fun _ => false)).length =
      (((List.range 23).map fun i => (⟨(i : Int), (i : Int)⟩ : Ev)).length
        + 10 - 1) / 10 ∧
     (∀ b ∈ (loadTimeStampedData
        ((List.range 23).map fun i => ⟨(i : Int), (i : Int)⟩) 10
        (fun _ => false)).dropLast, b.length = 10) ∧
     (∀ l, (loadTimeStampedData
        ((List.range 23).map fun i => ⟨(i : Int), (i : Int)⟩) 10
        (fun _ => false)).getLast? = some l →
      l.length = if ((List.range 23).map
          fun i => (⟨(i : Int), (i : Int)⟩ : Ev)).length % 10 = 0 then 10
        else ((List.range 23).map
          fun i => (⟨(i : Int), (i : Int)⟩ : Ev)).length % 10)) ∧
    ((loadTimeStampedData ((List.range 23).map fun i => ⟨(i : Int), (i : Int)⟩)
        10 (fun _ => false)).map List.length) = [10, 10, 3] :=
  ⟨c6_loader_batching ((List.range 23).map fun i => ⟨(i : Int), (i : Int)⟩)
      10 (fun _ => false) (by decide) (fun _ => rfl),
   by decide⟩

/-- Whenever the `SleepCheck` loop falls through to the emit, the
`tsDur` variable holds the rate-scaled timestamp gap (zero on the
equal-timestamp fast path, which coincides with `tsDurOf`), and the
returned observation remainder is a suffix of the input stream. -/
theorem sleepCheck_emitReady (rate tsCur tsPrev prevWall drift : Int) :
    ∀ (os : List Obs) (ws : List Int) (t sd : Int) (rest : List Obs),
      sleepCheck rate tsCur tsPrev prevWall drift os =
        some (.emitReady ws t sd rest) →
      t = tsDurOf rate tsCur tsPrev ∧ rest.IsSuffix os := by
  intro os
  induction os with
  | nil =>
      intro ws t sd rest h
      simp [sleepCheck] at h
  | cons o os ih =>
      intro ws t sd rest h
      rcases hs : o.sig with _ | _ | _ | _ <;>
        simp only [sleepCheck, hs] at h
      case quit => exact SleepEnd.noConfusion (Option.some.inj h)
      case pauseQuit => exact SleepEnd.noConfusion (Option.some.inj h)
      all_goals {
        by_cases heq : tsCur = tsPrev
        · rw [if_pos heq] at h
          have h1 := Option.some.inj h
          cases h1
          refine ⟨?_, List.suffix_cons_iff.mpr (Or.inr (List.suffix_refl _))⟩
          simp [tsDurOf, heq]
        · rw [if_neg heq] at h
          by_cases h0 : rate = 0
          · rw [if_pos h0] at h
            exact SleepEnd.noConfusion (Option.some.inj h)
          · rw [if_neg h0] at h
            by_cases hlt : ms250 <
                sdOf rate tsCur tsPrev o.now prevWall o.pauseDur drift
            · rw [if_pos hlt] at h
              cases hr : sleepCheck rate tsCur tsPrev prevWall drift os with
              | none => rw [hr] at h; simp [consWait] at h
              | some se =>
                  rw [hr] at h
                  cases se with
                  | emitReady ws1 t1 sd1 r1 =>
                      simp only [consWait, Option.some.injEq,
                        SleepEnd.emitReady.injEq] at h
                      obtain ⟨_, ht, hsd, hrest⟩ := h
                      obtain ⟨ht1, hsuf⟩ := ih ws1 t1 sd1 r1 hr
                      subst ht hrest
                      exact ⟨ht1, hsuf.trans (List.suffix_cons o os)⟩
                  | quitSig ws1 =>
                      simp only [consWait] at h
                      exact SleepEnd.noConfusion (Option.some.inj h)
                  | divZero =>
                      simp only [consWait] at h
                      exact SleepEnd.noConfusion (Option.some.inj h)
            · rw [if_neg hlt] at h
              have h1 := Option.some.inj h
              cases h1
              exact ⟨rfl,
                List.suffix_cons_iff.mpr (Or.inr (List.suffix_refl _))⟩
      }

/-- C2: in the `SleepCheck` loop, an event whose computed sleep
duration `sd` exceeds 250 ms causes exactly a 250 ms sleep followed by
a fresh pass of the loop on the remaining observations — which by
definition of `sleepCheck` re-checks the quit and pause signals and
recomputes `sd` from the then-current clock and pause readings; an
event whose computed `sd` is non-positive is emitted with no waiting
(its only recorded effective wait is zero). -/
theorem c2_chunked_sleep (rate tsCur tsPrev prevWall drift : Int)
    (o : Obs) (rest : List Obs)
    (hsig : o.sig = Sig.clear) (hne : tsCur ≠ tsPrev) (hrate : rate ≠ 0) :
    (ms250 < sdOf rate tsCur tsPrev o.now prevWall o.pauseDur drift →
      sleepCheck rate tsCur tsPrev prevWall drift (o :: rest) =
        consWait ms250 (sleepCheck rate tsCur tsPrev prevWall drift rest)) ∧
    (sdOf rate tsCur tsPrev o.now prevWall o.pauseDur drift ≤ 0 →
      sleepCheck rate tsCur tsPrev prevWall drift (o :: rest) =
        some (.emitReady [0] (tsDurOf rate tsCur tsPrev)
          (sdOf rate tsCur tsPrev o.now prevWall o.pauseDur drift) rest)) := by
  constructor
  · intro hgt
    simp only [sleepCheck, hsig, if_neg hne, if_neg hrate, if_pos hgt]
  · intro hle
    have hnlt : ¬ ms250 <
        sdOf rate tsCur tsPrev o.now prevWall o.pauseDur drift := by
      have h250 : (0 : Int) ≤ ms250 := by decide
      omega
    simp only [sleepCheck, hsig, if_neg hne, if_neg hrate, if_neg hnlt]
    have heff : sleepEff
        (sdOf rate tsCur tsPrev o.now prevWall o.pauseDur drift) = 0 := by
      simp only [sleepEff]
      omega
    rw [heff]

theorem c2_witness :
    (sleepCheck 1 1000000000 0 0 0 [⟨.clear, 0, 0⟩] =
      consWait ms250 (sleepCheck 1 1000000000 0 0 0 [])) ∧
    (sleepCheck 1 100 0 0 0 [⟨.clear, 200, 0⟩] =
      some (.emitReady [0] (tsDurOf 1 100 0) (sdOf 1 100 0 200 0 0 0) [])) :=
  ⟨(c2_chunked_sleep 1 1000000000 0 0 0 ⟨.clear, 0, 0⟩ [] rfl
      (by decide) (by decide)).1 (by decide),
   (c2_chunked_sleep 1 100 0 0 0 ⟨.clear, 200, 0⟩ [] rfl
      (by decide) (by decide)).2 (by decide)⟩

/-- C3: whenever `processTs` releases an event, the drift accumulator
is advanced by the integrator rule `driftFactor + driftDur`, where
`driftDur` is the wall interval between this release and the previous
one, minus the pause duration read at the release, minus the
rate-scaled timestamp gap; and the sleep the loop would compute for
any following event equals the scaled gap minus the pause-adjusted
elapsed wall time minus this updated drift factor. -/
theorem c3_drift_integrator (rate : Int) (ev : Ev) (s : TimerState)
    (os os1 : List Obs) (s1 : TimerState) (ws : List Int)
    (h : processTs rate ev s os = .ok s1 os1 ws) :
    ∃ e : Obs, (e :: os1).IsSuffix os ∧
      s1.prevWallSendTime = e.now ∧
      s1.driftFactor = s.driftFactor +
        (((e.now - s.prevWallSendTime) - e.pauseDur) -
          tsDurOf rate ev.tim s.prevTsDataTime) ∧
      (∀ (ts2 : Int) (o3 : Obs),
        sdOf rate ts2 s1.prevTsDataTime o3.now s1.prevWallSendTime
            o3.pauseDur s1.driftFactor =
          (tsDurOf rate ts2 s1.prevTsDataTime -
            ((o3.now - s1.prevWallSendTime) - o3.pauseDur)) -
            s1.driftFactor) := by
  simp only [processTs] at h
  cases hsc : sleepCheck rate ev.tim s.prevTsDataTime s.prevWallSendTime
      s.driftFactor os with
  | none => rw [hsc] at h; exact EvOutcome.noConfusion h
  | some se =>
      rw [hsc] at h
      cases se with
      | emitReady ws0 t sd0 rest =>
          obtain ⟨ht, hsuf⟩ := sleepCheck_emitReady rate ev.tim
            s.prevTsDataTime s.prevWallSendTime s.driftFactor os ws0 t sd0
            rest hsc
          cases rest with
          | nil => exact EvOutcome.noConfusion h
          | cons e rest1 =>
              simp only [EvOutcome.ok.injEq] at h
              obtain ⟨hst, hos, _⟩ := h
              refine ⟨e, ?_, ?_, ?_, ?_⟩
              · rw [← hos]; exact hsuf
              · rw [← hst]
              · rw [← hst, ht]
              · intro ts2 o3
                simp [sdOf]
      | quitSig ws0 => exact EvOutcome.noConfusion h
      | divZero => exact EvOutcome.noConfusion h

theorem c3_witness :
    ∃ e : Obs, (e :: ([] : List Obs)).IsSuffix
        [⟨.clear, 0, 0⟩, ⟨.clear, 3, 0⟩] ∧
      (⟨5, 3, -2, 1, [⟨5, 5, 0, 1, -2⟩]⟩ : TimerState).prevWallSendTime =
        e.now ∧
      (⟨5, 3, -2, 1, [⟨5, 5, 0, 1, -2⟩]⟩ : TimerState).driftFactor =
        (initTimer 0 0).driftFactor +
          (((e.now - (initTimer 0 0).prevWallSendTime) - e.pauseDur) -
            tsDurOf 1 (5 : Int) (initTimer 0 0).prevTsDataTime) ∧
      (∀ (ts2 : Int) (o3 : Obs),
        sdOf 1 ts2 (⟨5, 3, -2, 1, [⟨5, 5, 0, 1, -2⟩]⟩ :
            TimerState).prevTsDataTime o3.now
          (⟨5, 3, -2, 1, [⟨5, 5, 0, 1, -2⟩]⟩ :
            TimerState).prevWallSendTime o3.pauseDur
          (⟨5, 3, -2, 1, [⟨5, 5, 0, 1, -2⟩]⟩ : TimerState).driftFactor =
        (tsDurOf 1 ts2 (⟨5, 3, -2, 1, [⟨5, 5, 0, 1, -2⟩]⟩ :
            TimerState).prevTsDataTime -
          ((o3.now - (⟨5, 3, -2, 1, [⟨5, 5, 0, 1, -2⟩]⟩ :
            TimerState).prevWallSendTime) - o3.pauseDur)) -
          (⟨5, 3, -2, 1, [⟨5, 5, 0, 1, -2⟩]⟩ : TimerState).driftFactor) :=
  c3_drift_integrator 1 ⟨5, 1⟩ (initTimer 0 0)
    [⟨.clear, 0, 0⟩, ⟨.clear, 3, 0⟩] []
    ⟨5, 3, -2, 1, [⟨5, 5, 0, 1, -2⟩]⟩ [5] (by decide)

/-- C8: on the timing path of the `SleepCheck` loop the scheduled
inter-event interval carried to the release is exactly the timestamp
gap divided by the rate with truncating integer division,
`Int.tdiv (tsCur - tsPrev) rate`; in particular a 4-minute source gap
at rate 2 is scheduled as a 2-minute wall interval. -/
theorem c8_rate_scaling (rate tsCur tsPrev prevWall drift : Int)
    (o : Obs) (rest : List Obs)
    (hsig : o.sig = Sig.clear) (hne : tsCur ≠ tsPrev) (hrate : rate ≠ 0)
    (hle : sdOf rate tsCur tsPrev o.now prevWall o.pauseDur drift ≤ ms250) :
    sleepCheck rate tsCur tsPrev prevWall drift (o :: rest) =
      some (.emitReady
        [sleepEff (sdOf rate tsCur tsPrev o.now prevWall o.pauseDur drift)]
        (Int.tdiv (tsCur - tsPrev) rate)
        (sdOf rate tsCur tsPrev o.now prevWall o.pauseDur drift) rest) ∧
    tsDurOf 2 240000000000 0 = 120000000000 := by
  constructor
  · have hnlt : ¬ ms250 <
        sdOf rate tsCur tsPrev o.now prevWall o.pauseDur drift :=
      not_lt.mpr hle
    simp only [sleepCheck, hsig, if_neg hne, if_neg hrate, if_neg hnlt,
      tsDurOf]
  · decide

theorem c8_witness :
    (sleepCheck 2 240000000000 0 0 0 [⟨.clear, 120000000000, 0⟩] =
      some (.emitReady
        [sleepEff (sdOf 2 240000000000 0 120000000000 0 0 0)]
        (Int.tdiv (240000000000 - 0) 2)
        (sdOf 2 240000000000 0 120000000000 0 0 0) [])) ∧
    tsDurOf 2 240000000000 0 = 120000000000 :=
  c8_rate_scaling 2 240000000000 0 0 0 ⟨.clear, 120000000000, 0⟩ [] rfl
    (by decide) (by decide) (by decide)

/-- C9 (amended): a session whose rate is zero is fatal to the replay:
as soon as the timer processes an event whose timestamp differs from
the previous one, the duration division `tsDur / pb.simRatDur` panics
with Go's integer-divide-by-zero runtime diagnostic, killing the run;
(a negative rate, by contrast, is not detected — see the
counterexample). -/
theorem c9_zero_rate_fatal (ev : Ev) (s : TimerState) (o : Obs)
    (os : List Obs)
    (hsig : o.sig = Sig.clear) (hne : ev.tim ≠ s.prevTsDataTime) :
    processTs 0 ev s (o :: os) = .divZero ∧
    dataTimer 0 [[ev]] s (o :: os) = .panicRun [] := by
  have hp : processTs 0 ev s (o :: os) = .divZero := by
    simp [processTs, sleepCheck, hsig, hne]
  refine ⟨hp, ?_⟩
  simp only [dataTimer, timerBuf, hp]

theorem c9_witness :
    processTs 0 (⟨5, 1⟩ : Ev) (initTimer 0 0) [⟨.clear, 0, 0⟩] =
      .divZero ∧
    dataTimer 0 [[⟨5, 1⟩]] (initTimer 0 0) [⟨.clear, 0, 0⟩] =
      .panicRun [] :=
  c9_zero_rate_fatal ⟨5, 1⟩ (initTimer 0 0) ⟨.clear, 0, 0⟩ [] rfl
    (by decide)

/-- C9 counterexample: with the negative rate -1 (non-positive, the
case the claim calls an invariant violation) the replay does not
terminate with a diagnostic: the timer computes a negative scaled gap,
sleeps not at all, emits the event, and finishes naturally. -/
theorem c9_counterexample :
    dataTimer (-1) [[⟨5, 1⟩]] (initTimer 0 0)
        [⟨.clear, 0, 0⟩, ⟨.clear, 3, 0⟩] =
      .finished [⟨5, 1⟩] ⟨5, 3, 8, 1, [⟨5, -5, 0, 1, 8⟩]⟩ [] := by
  decide

/-- C5: each control method is idempotent with respect to the state
flags: `Play` while active spawns nothing and changes nothing;
`Pause` while already paused or while inactive changes nothing and
signals no channel; `Resume` while not paused changes nothing and
signals no channel; `Quit` while inactive changes nothing and signals
no channel. -/
theorem c5_control_idempotence (s : PBCtl) :
    (s.replayActive = true → Play s = (s, false)) ∧
    (s.paused = true ∨ s.replayActive = false → Pause s = (s, none)) ∧
    (s.paused = false → Resume s = (s, none)) ∧
    (s.replayActive = false → Quit s = (s, none)) := by
  refine ⟨?_, ?_, ?_, ?_⟩
  · intro ha
    simp [Play, ha]
  · intro hc
    have hnc : ¬ (s.paused = false ∧ s.replayActive = true) := by
      intro hn
      rcases hc with hc | hc
      · rw [hc] at hn; exact Bool.noConfusion hn.1
      · rw [hc] at hn; exact Bool.noConfusion hn.2
    simp [Pause, hnc]
  · intro hp
    simp [Resume, hp]
  · intro ha
    simp [Quit, ha]

theorem c5_witness :
    (Play ⟨false, true, 0, ⟨0, false⟩, ⟨0, false⟩, ⟨0, false⟩⟩ =
      (⟨false, true, 0, ⟨0, false⟩, ⟨0, false⟩, ⟨0, false⟩⟩, false)) ∧
    (Pause ⟨true, false, 0, ⟨0, false⟩, ⟨0, false⟩, ⟨0, false⟩⟩ =
      (⟨true, false, 0, ⟨0, false⟩, ⟨0, false⟩, ⟨0, false⟩⟩, none)) ∧
    (Resume ⟨false, true, 0, ⟨0, false⟩, ⟨0, false⟩, ⟨0, false⟩⟩ =
      (⟨false, true, 0, ⟨0, false⟩, ⟨0, false⟩, ⟨0, false⟩⟩, none)) ∧
    (Quit ⟨true, false, 0, ⟨0, false⟩, ⟨0, false⟩, ⟨0, false⟩⟩ =
      (⟨true, false, 0, ⟨0, false⟩, ⟨0, false⟩, ⟨0, false⟩⟩, none)) :=
  ⟨(c5_control_idempotence _).1 rfl,
   (c5_control_idempotence _).2.1 (Or.inl rfl),
   (c5_control_idempotence _).2.2.1 rfl,
   (c5_control_idempotence _).2.2.2 rfl⟩

/-- C4 (amended): the accumulated pause duration is mutated in exactly
two places — the controller's resume handling adds the measured pause
interval, and the timer resets it to zero after each release, reading
the pre-reset value into `driftDur` — while the API methods and the
run initialisation leave it unchanged. -/
theorem c4_pause_dur_mutators (s : PBCtl) (d w p t : Int) :
    (controllerOnResume s d).pauseDur = d + s.pauseDur ∧
    (dataTimerAfterEmit s w p t).1.pauseDur = 0 ∧
    (dataTimerAfterEmit s w p t).2 = ((w - p) - s.pauseDur) - t ∧
    (Play s).1.pauseDur = s.pauseDur ∧
    (Pause s).1.pauseDur = s.pauseDur ∧
    (Resume s).1.pauseDur = s.pauseDur ∧
    (Quit s).1.pauseDur = s.pauseDur ∧
    (initRun s).pauseDur = s.pauseDur := by
  refine ⟨rfl, rfl, rfl, ?_, ?_, ?_, ?_, rfl⟩
  · unfold Play; split <;> rfl
  · unfold Pause; split <;> rfl
  · unfold Resume; split <;> rfl
  · unfold Quit; split <;> rfl

/-- C4 counterexample: the timer does not merely read the accumulated
pause duration — its post-emit section overwrites it with zero, so
the claim that only the controller's resume handling mutates it fails
at any state with a nonzero accumulated pause. -/
theorem c4_counterexample :
    (dataTimerAfterEmit
        ⟨false, true, 5, ⟨0, false⟩, ⟨0, false⟩, ⟨0, false⟩⟩ 0 0 0).1.pauseDur ≠
      (⟨false, true, 5, ⟨0, false⟩, ⟨0, false⟩, ⟨0, false⟩⟩ :
        PBCtl).pauseDur := by
  decide

/-- C7 (amended): `New` returns a Configuration-kind error
synchronously if and only if the supplied source is nil (the error
text is the configuration message), and for every non-nil source that
implements the `TimeBracket` capability — under any sink, including an
unspecified one — it returns a session and no error.  (A non-nil
source lacking `TimeBracket` panics instead; see the
counterexample.) -/
theorem c7_new_validation (symbol : String) (st et rate : Int)
    (cb : Option (Ev → Bool)) :
    (∀ srcO : Option TsSrc,
      (∃ m, New symbol st et srcO rate cb = .err m) ↔ srcO = none) ∧
    New symbol st et none rate cb = .err "playBack: tsSource required" ∧
    (∀ src : TsSrc, src.implementsTimeBracket = true →
      ∃ pb, New symbol st et (some src) rate cb = .ok pb) := by
  refine ⟨?_, rfl, ?_⟩
  · intro srcO
    constructor
    · rintro ⟨m, hm⟩
      cases srcO with
      | none => rfl
      | some src =>
          simp only [New] at hm
          by_cases hib : src.implementsTimeBracket
          · rw [if_pos hib] at hm
            exact NewResult.noConfusion hm
          · rw [if_neg hib] at hm
            exact NewResult.noConfusion hm
    · rintro rfl
      exact ⟨"playBack: tsSource required", rfl⟩
  · intro src hib
    have hok : New symbol st et (some src) rate cb = .ok
        { Symbol := symbol
          StartTime := st
          EndTime := et
          SimRate := rate
          simRatDur := rate
          tsDataBufSize := 500
          tsDataChanLen := 5
          SendTs := match cb with
                    | none => fun _ => true
                    | some f => f } := by
      simp only [New, hib, if_true]
    exact ⟨_, hok⟩

theorem c7_witness :
    ((∃ m, New "x" 0 0 none 2 none = NewResult.err m) ↔
      (none : Option TsSrc) = none) ∧
    (∃ pb, New "x" 0 0 (some ⟨true⟩) 2 none = .ok pb) :=
  ⟨(c7_new_validation "x" 0 0 2 none).1 none,
   (c7_new_validation "x" 0 0 2 none).2.2 ⟨true⟩ rfl⟩

/-- C7 counterexample: the claim that every non-nil source (with any
sink) yields a session fails — a non-nil source whose dynamic value
does not implement `TimeBracket` makes `New` panic at the unchecked
type assertion, so no session is returned. -/
theorem c7_counterexample :
    New "x" 0 0 (some ⟨false⟩) 2 none = .panicked ∧
    ¬ ∃ pb, New "x" 0 0 (some ⟨false⟩) 2 none = .ok pb := by
  refine ⟨rfl, ?_⟩
  rintro ⟨pb, h⟩
  exact NewResult.noConfusion h

/-- C10: a source value that does not implement the `TimeBracket`
capability (`SetStartTime`/`SetEndTime`) makes `New` panic at the
unchecked type assertion instead of returning an error, and a session
is returned without panic only when the source — already an iterator
by its static type — also implements the bracket capability. -/
theorem c10_bracket_assertion (symbol : String) (st et rate : Int)
    (cb : Option (Ev → Bool)) (src : TsSrc) :
    (New symbol st et (some src) rate cb = .panicked ↔
      src.implementsTimeBracket = false) ∧
    (∀ pb, New symbol st et (some src) rate cb = .ok pb →
      src.implementsTimeBracket = true) := by
  constructor
  · constructor
    · intro h
      by_cases hib : src.implementsTimeBracket
      · simp only [New, hib, if_true] at h
        exact NewResult.noConfusion h
      · simpa using hib
    · intro h
      simp only [New, h, Bool.false_eq_true, if_false]
  · intro pb h
    by_cases hib : src.implementsTimeBracket
    · exact hib
    · simp only [New, hib, Bool.false_eq_true, if_false] at h
      exact NewResult.noConfusion h

theorem c10_witness :
    New "x" 0 0 (some ⟨false⟩) 2 none = .panicked ∧
    (⟨true⟩ : TsSrc).implementsTimeBracket = true :=
  ⟨(c10_bracket_assertion "x" 0 0 2 none ⟨false⟩).1.mpr rfl,
   (c10_bracket_assertion "x" 0 0 2 none ⟨true⟩).2
     { Symbol := "x", StartTime := 0, EndTime := 0, SimRate := 2,
       simRatDur := 2, tsDataBufSize := 500, tsDataChanLen := 5,
       SendTs := fun _ => true } rfl⟩

end GoPeat
